import Mathlib

/-!
Verification of the ETL pipeline in `etl.py` (star-schema data-lake job).

The pipeline reads a catalog of songs and a stream of log events, builds
four dimension tables (`songs_table`, `artists_table`, `users_table`,
`time_table`) and one fact table (`songplays_table`), and writes them out.
We shallow-embed the relational transformations as functions on Lean lists,
with SQL three-valued null semantics made explicit through `Option`.
-/

namespace Etl

/-! ## Binary64 model

`etl.py` line 112 computes `(F.col('ts') / 1000.0).cast(TimestampType())`.
The engine evaluates this as IEEE-754 binary64 arithmetic: the long `ts` is
converted to a double, divided by `1000.0` (round to nearest, ties to even),
and the double-to-timestamp cast multiplies by `1e6` and truncates toward
zero to a long holding epoch microseconds.  We model binary64 values by the
exact rationals they denote; all inputs here are far inside the normal
range, so rounding a real result to 53 significant bits is the whole story. -/

/-- Fuel-driven binary logarithm (structural recursion, so it evaluates
inside the kernel; `n` itself is always enough fuel). -/
def log2Fuel : ℕ → ℕ → ℕ
  | 0, _ => 0
  | fuel + 1, n => if 2 ≤ n then log2Fuel fuel (n / 2) + 1 else 0

/-- `⌊log₂ n⌋` for `n > 0` (junk value `0` at `0`). -/
def log2Nat (n : ℕ) : ℕ := log2Fuel n n

/-- `⌊log₂ (p/q)⌋` for `p, q > 0`. -/
def ilog2Frac (p q : ℤ) : ℤ :=
  let k : ℤ := (log2Nat p.toNat : ℤ) - (log2Nat q.toNat : ℤ)
  let ge : Bool :=
    if 0 ≤ k then decide (q * 2 ^ k.toNat ≤ p) else decide (q ≤ p * 2 ^ (-k).toNat)
  if ge then k else k - 1

/-- `p/q` rounded to the nearest integer, ties to even (`q > 0`). -/
def divRoundHalfEven (p q : ℤ) : ℤ :=
  let n := Int.fdiv p q
  let r := p - n * q
  if 2 * r < q then n
  else if q < 2 * r then n + 1
  else if n % 2 = 0 then n else n + 1

/-- The binary64 (IEEE-754 double, round to nearest, ties to even)
rounding of the nonnegative fraction `p/q` (`q > 0`), returned as a
dyadic pair `(m, e)` denoting `m·2^e`: scale `p/q` so that the
significand lies in `[2^52, 2^53)` and round it to an integer.  All
values in this development are far inside the normal range, so neither
overflow nor subnormals arise. -/
def rnd53Frac (p q : ℤ) : ℤ × ℤ :=
  if p = 0 then (0, 0)
  else
    let e := ilog2Frac p q - 52
    let m :=
      if 0 ≤ e then divRoundHalfEven p (q * 2 ^ e.toNat)
      else divRoundHalfEven (p * 2 ^ (-e).toNat) q
    (m, e)

/-- Epoch microseconds stored for `start_time` of a nonnegative `ts`:
`double(ts)`, IEEE division by `1000.0`, then the double→timestamp cast
`(d * 1000000).toLong` — IEEE multiplication by `1e6` and truncation
toward zero. -/
def sparkStartTimeUsPos (ts : ℤ) : ℤ :=
  let d0 := rnd53Frac ts 1
  let d1 :=
    if 0 ≤ d0.2 then rnd53Frac (d0.1 * 2 ^ d0.2.toNat) 1000
    else rnd53Frac d0.1 (1000 * 2 ^ (-d0.2).toNat)
  let d2 :=
    if 0 ≤ d1.2 then rnd53Frac (d1.1 * 1000000 * 2 ^ d1.2.toNat) 1
    else rnd53Frac (d1.1 * 1000000) (2 ^ (-d1.2).toNat)
  if 0 ≤ d2.2 then d2.1 * 2 ^ d2.2.toNat else Int.fdiv d2.1 (2 ^ (-d2.2).toNat)

/-- Epoch microseconds stored for `start_time`
(`etl.py` line 112): `(F.col('ts') / 1000.0).cast(TimestampType())`
evaluated in binary64 (negative inputs by sign symmetry of IEEE rounding
and of the truncating long cast). -/
def sparkStartTimeUs (ts : ℤ) : ℤ :=
  if ts < 0 then -sparkStartTimeUsPos (-ts) else sparkStartTimeUsPos ts

/-! ## Calendar decomposition

`etl.py` lines 147-152 derive `hour`, `day`, `week`, `month`, `year`,
`weekday` from `start_time` with the engine's calendar functions; lines
170-171 reuse `YEAR`/`MONTH` for the fact table.  We model them as the
proleptic-Gregorian decomposition of the stored epoch-microsecond value
(the engine evaluates them in its fixed session time zone; we model UTC —
every field is a pure function of the stored microsecond value either
way). -/

/-- Days since 1970-01-01 of the civil day containing the instant. -/
def daysOfUs (us : ℤ) : ℤ := Int.fdiv us 86400000000

/-- Hour of day, 0-23 (`F.hour`). -/
def hourOfUs (us : ℤ) : ℤ := Int.fmod (Int.fdiv us 3600000000) 24

/-- Civil `(year, month, day)` from days since the epoch
(standard proleptic-Gregorian conversion). -/
def civilFromDays (z0 : ℤ) : ℤ × ℤ × ℤ :=
  let z := z0 + 719468
  let era := Int.fdiv z 146097
  let doe := z - era * 146097
  let yoe := Int.fdiv (doe - Int.fdiv doe 1460 + Int.fdiv doe 36524 - Int.fdiv doe 146096) 365
  let y := yoe + era * 400
  let doy := doe - (365 * yoe + Int.fdiv yoe 4 - Int.fdiv yoe 100)
  let mp := Int.fdiv (5 * doy + 2) 153
  let d := doy - Int.fdiv (153 * mp + 2) 5 + 1
  let m := mp + (if mp < 10 then 3 else -9)
  (y + (if m ≤ 2 then 1 else 0), m, d)

/-- Days since the epoch of a civil date (inverse of `civilFromDays`). -/
def daysFromCivil (y0 m d : ℤ) : ℤ :=
  let y := y0 - (if m ≤ 2 then 1 else 0)
  let era := Int.fdiv y 400
  let yoe := y - era * 400
  let doy := Int.fdiv (153 * (m + (if 2 < m then -3 else 9)) + 2) 5 + d - 1
  let doe := yoe * 365 + Int.fdiv yoe 4 - Int.fdiv yoe 100 + doy
  era * 146097 + doe - 719468

/-- Day of month (`F.dayofmonth`). -/
def dayOfUs (us : ℤ) : ℤ := (civilFromDays (daysOfUs us)).2.2

/-- Month, 1-12 (`F.month` / `MONTH`). -/
def monthOfUs (us : ℤ) : ℤ := (civilFromDays (daysOfUs us)).2.1

/-- Year (`F.year` / `YEAR`). -/
def yearOfUs (us : ℤ) : ℤ := (civilFromDays (daysOfUs us)).1

/-- Day of week, 1 = Sunday .. 7 = Saturday (`F.dayofweek`);
day 0 (1970-01-01) was a Thursday. -/
def weekdayOfUs (us : ℤ) : ℤ := Int.fmod (daysOfUs us + 4) 7 + 1

/-- ISO 8601 week of year (`F.weekofyear`): the week number of the
Thursday of the instant's Monday-based week. -/
def weekOfUs (us : ℤ) : ℤ :=
  let dz := daysOfUs us
  let thu := dz - Int.fmod (dz + 3) 7 + 3
  let jan1 := daysFromCivil (civilFromDays thu).1 1 1
  Int.fdiv (thu - jan1) 7 + 1

/-! ## SQL scalar semantics -/

/-- SQL `=` between two nullable strings: `NULL` never compares equal
(the predicate is not satisfied), matching the engine's join and filter
semantics. -/
def sqlEqStr (a b : Option String) : Bool :=
  match a, b with
  | some x, some y => x == y
  | _, _ => false

/-- SQL `=` between two nullable integers. -/
def sqlEqInt (a b : Option ℤ) : Bool :=
  match a, b with
  | some x, some y => x == y
  | _, _ => false

/-- The engine's binary comparison on strings, as an executable
lexicographic comparison of the character sequences (this agrees with
the mathematical order on `String`; see `strLe_iff`). -/
def strLe (a b : String) : Bool := decide (a.toList ≤ b.toList)

/-- Executable comparison on integers. -/
def intLe (a b : ℤ) : Bool := decide (a ≤ b)

/-- Executable comparison on exact numeric values. -/
def ratLe (a b : ℚ) : Bool := decide (a ≤ b)

/-- SQL `MIN` aggregate over a column with comparison `le`: nulls are
ignored, and the result is `NULL` exactly when every value in the group
is `NULL`. -/
def sqlMin {α : Type _} (le : α → α → Bool) : List (Option α) → Option α
  | [] => none
  | none :: t => sqlMin le t
  | some v :: t =>
      match sqlMin le t with
      | none => some v
      | some m => some (if le v m then v else m)

/-- SQL `MAX` aggregate over a column with comparison `le`: nulls are
ignored, and the result is `NULL` exactly when every value in the group
is `NULL`. -/
def sqlMax {α : Type _} (le : α → α → Bool) : List (Option α) → Option α
  | [] => none
  | none :: t => sqlMax le t
  | some v :: t =>
      match sqlMax le t with
      | none => some v
      | some m => some (if le v m then m else v)

/-- One decimal digit. -/
def digitVal (c : Char) : Option ℕ :=
  if c.isDigit then some (c.toNat - 48) else none

/-- Parse a nonempty all-digit string. -/
def parseDigits : List Char → Option ℕ
  | [] => none
  | cs =>
      cs.foldl
        (fun acc c =>
          match acc, digitVal c with
          | some n, some d => some (n * 10 + d)
          | _, _ => none)
        (some 0)

/-- The engine's `CAST(s AS int)` on a string: optional sign followed by
decimal digits, `NULL` on anything unparseable (e.g. the empty string) or
out of 32-bit range. -/
def sparkCastInt (s : String) : Option ℤ :=
  let v : Option ℤ :=
    match s.toList with
    | '+' :: ds => (parseDigits ds).map (fun n => (n : ℤ))
    | '-' :: ds => (parseDigits ds).map (fun n => -(n : ℤ))
    | ds => (parseDigits ds).map (fun n => (n : ℤ))
  v.bind (fun n => if -(2 ^ 31) ≤ n ∧ n < 2 ^ 31 then some n else none)

/-! ## Data model

Rows read from the JSON sources (`song_data`, `log_data`).  Every field
the reader can leave absent or null is an `Option`; `ts` is always
present in the event schema (epoch milliseconds). -/

/-- A raw catalog record (one JSON object of `song_data`). -/
structure CatalogRecord where
  song_id : Option String
  title : Option String
  artist_id : Option String
  artist_name : Option String
  artist_location : Option String
  artist_latitude : Option ℚ
  artist_longitude : Option ℚ
  year : Option ℤ
  duration : Option ℚ
deriving DecidableEq, Repr

/-- A raw event record (one JSON object of `log_data`). -/
structure RawEvent where
  ts : ℤ
  page : Option String
  userId : Option String
  firstName : Option String
  lastName : Option String
  gender : Option String
  level : Option String
  song : Option String
  artist : Option String
  sessionId : Option ℤ
  location : Option String
  userAgent : Option String
deriving DecidableEq, Repr

/-- A normalized event: the `logs` view of `etl.py` lines 111-120, after
the `start_time` column is added, rows are filtered to
`page == 'NextSong'`, and the twelve columns are projected. -/
structure Event where
  ts : ℤ
  start_time : ℤ
  userId : Option String
  firstName : Option String
  lastName : Option String
  gender : Option String
  level : Option String
  song : Option String
  artist : Option String
  sessionId : Option ℤ
  location : Option String
  userAgent : Option String
deriving DecidableEq, Repr

/-- The Event Normalizer (`etl.py` lines 111-117): add `start_time`,
keep only `NextSong` events (SQL `=`, so a null `page` never passes),
project. -/
def logsView (raw : List RawEvent) : List Event :=
  (raw.filter (fun e => sqlEqStr e.page (some "NextSong"))).map
    (fun e =>
      { ts := e.ts, start_time := sparkStartTimeUs e.ts, userId := e.userId,
        firstName := e.firstName, lastName := e.lastName, gender := e.gender,
        level := e.level, song := e.song, artist := e.artist,
        sessionId := e.sessionId, location := e.location,
        userAgent := e.userAgent })

/-- A row of the item dimension (`songs_table`). -/
structure SongRow where
  song_id : Option String
  title : Option String
  artist_id : Option String
  year : Option ℤ
  duration : Option ℚ
deriving DecidableEq, Repr

/-- A row of the creator dimension (`artists_table`). -/
structure ArtistRow where
  artist_id : Option String
  name : Option String
  location : Option String
  latitude : Option ℚ
  longitude : Option ℚ
deriving DecidableEq, Repr

/-- A row of the user dimension (`users_table`). -/
structure UserRow where
  user_id : Option ℤ
  first_name : Option String
  last_name : Option String
  gender : Option String
  level : Option String
deriving DecidableEq, Repr

/-- A row of the time dimension (`time_table`). -/
structure TimeRow where
  start_time : ℤ
  hour : ℤ
  day : ℤ
  week : ℤ
  month : ℤ
  year : ℤ
  weekday : ℤ
deriving DecidableEq, Repr

/-- A fact row before the surrogate key is attached
(`etl.py` lines 161-176). -/
structure FactRow where
  start_time : ℤ
  user_id : Option ℤ
  level : Option String
  song_id : Option String
  artist_id : Option String
  session_id : Option ℤ
  location : Option String
  user_agent : Option String
  year : ℤ
  month : ℤ
deriving DecidableEq, Repr

/-- A fact row with the `songplay_id` surrogate key
(`etl.py` lines 179-181). -/
structure NumberedFactRow extends FactRow where
  songplay_id : ℤ
deriving DecidableEq, Repr

/-! ## Catalog Dimension Builder (`process_song_data`) -/

/-- `etl.py` lines 57-65: `GROUP BY song_id` (SQL grouping puts all null
keys in one group) with `MIN` over each remaining column. -/
def songs_table (songs : List CatalogRecord) : List SongRow :=
  ((songs.map (·.song_id)).dedup).map (fun k =>
    let g := songs.filter (fun s => s.song_id == k)
    { song_id := k
      title := sqlMin strLe (g.map (·.title))
      artist_id := sqlMin strLe (g.map (·.artist_id))
      year := sqlMin intLe (g.map (·.year))
      duration := sqlMin ratLe (g.map (·.duration)) })

/-- `etl.py` lines 72-80: `GROUP BY artist_id` with `MIN` over each
remaining column. -/
def artists_table (songs : List CatalogRecord) : List ArtistRow :=
  ((songs.map (·.artist_id)).dedup).map (fun k =>
    let g := songs.filter (fun s => s.artist_id == k)
    { artist_id := k
      name := sqlMin strLe (g.map (·.artist_name))
      location := sqlMin strLe (g.map (·.artist_location))
      latitude := sqlMin ratLe (g.map (·.artist_latitude))
      longitude := sqlMin ratLe (g.map (·.artist_longitude)) })

/-! ## User Resolver (`users_table`, `etl.py` lines 123-139) -/

/-- One row of the grouped subquery `B`:
`SELECT userId, MAX(ts) AS tsLast FROM logs GROUP BY userId`. -/
structure UserGroupRow where
  userId : Option String
  tsLast : Option ℤ
deriving DecidableEq, Repr

/-- The subquery `B` of `etl.py` lines 131-135. -/
def usersSub (logs : List Event) : List UserGroupRow :=
  ((logs.map (·.userId)).dedup).map (fun u =>
    { userId := u
      tsLast := sqlMax intLe ((logs.filter (fun e => e.userId == u)).map (fun e => some e.ts)) })

/-- The projected `SELECT` list of the users query:
`CAST(A.userId AS int)`, then names, gender and level. -/
def mkUserRow (a : Event) : UserRow :=
  { user_id := a.userId.bind sparkCastInt
    first_name := a.firstName
    last_name := a.lastName
    gender := a.gender
    level := a.level }

/-- `etl.py` lines 123-139: inner-join `logs` to `B` on
`A.userId = B.userId AND A.ts = B.tsLast` (SQL `=`, null never matches),
keep rows with non-null `userId`, project, and `SELECT DISTINCT`. -/
def users_table (logs : List Event) : List UserRow :=
  ((logs.flatMap (fun a =>
      ((usersSub logs).filter
        (fun b => sqlEqStr a.userId b.userId && sqlEqInt (some a.ts) b.tsLast)).map
        (fun _ => a))
    |>.filter (fun a => a.userId.isSome)
    |>.map mkUserRow)).dedup

/-! ## Time Dimension Builder (`time_table`, `etl.py` lines 146-154) -/

/-- The seven derived columns of one time row, every one of them a pure
function of `start_time`. -/
def mkTimeRow (st : ℤ) : TimeRow :=
  { start_time := st, hour := hourOfUs st, day := dayOfUs st,
    week := weekOfUs st, month := monthOfUs st, year := yearOfUs st,
    weekday := weekdayOfUs st }

/-- `etl.py` lines 146-154: derive the calendar columns and
`dropDuplicates()` over the whole row (the kept representative is
arbitrary in the engine; `dedup` picks one, and the row *set* is what the
spec constrains). -/
def time_table (logs : List Event) : List TimeRow :=
  (logs.map (fun e => mkTimeRow e.start_time)).dedup

/-! ## Fact Assembler (`songplays_table`, `etl.py` lines 161-181) -/

/-- The join predicate of `etl.py` lines 174-175:
`A.song = B.title AND A.artist = B.artist_name` — SQL equality, so a null
on either side never matches. -/
def joinCond (a : Event) (b : CatalogRecord) : Bool :=
  sqlEqStr a.song b.title && sqlEqStr a.artist b.artist_name

/-- The projected `SELECT` list of `etl.py` lines 162-171.  `B` ranges
over the raw `songs` view registered at line 54, not over the grouped
`songs_table`. -/
def mkFact (a : Event) (b : CatalogRecord) : FactRow :=
  { start_time := a.start_time
    user_id := a.userId.bind sparkCastInt
    level := a.level
    song_id := b.song_id
    artist_id := b.artist_id
    session_id := a.sessionId
    location := a.location
    user_agent := a.userAgent
    year := yearOfUs a.start_time
    month := monthOfUs a.start_time }

/-- The inner join `FROM logs A INNER JOIN songs B` of lines 172-176:
one output row per `(event, raw catalog record)` pair satisfying the
predicate. -/
def songplaysJoin (logs : List Event) (songs : List CatalogRecord) : List FactRow :=
  logs.flatMap (fun a => (songs.filter (joinCond a)).map (mkFact a))

/-- Ordering of fact rows by `start_time` (the `Window.orderBy` key of
line 179). -/
def factLE (a b : FactRow) : Prop := a.start_time ≤ b.start_time

instance : DecidableRel factLE := fun a b => inferInstanceAs (Decidable (a.start_time ≤ b.start_time))

instance : IsTotal FactRow factLE := ⟨fun a b => le_total a.start_time b.start_time⟩

instance : IsTrans FactRow factLE := ⟨fun _ _ _ h h' => le_trans h h'⟩

/-- `etl.py` lines 179-181: `row_number()` over the global (no
`partitionBy`) window ordered by `start_time` ascending — sort the whole
join result by `start_time` (ties in an unspecified deterministic order;
we use a stable sort) and attach `1, 2, …` in that order. -/
def songplays_table (logs : List Event) (songs : List CatalogRecord) :
    List NumberedFactRow :=
  let sorted := List.insertionSort factLE (songplaysJoin logs songs)
  (sorted.zip (List.range sorted.length)).map
    (fun p => { toFactRow := p.1, songplay_id := (p.2 : ℤ) + 1 })

/-! ## Entry point (`main`, `etl.py` lines 188-204)

`main` runs `process_song_data` and then `process_log_data`; each write
of a finished table goes to the Partitioned Writer.  Reading the event
files yields either typed rows or a schema error; a schema mismatch in
the event input surfaces when `process_log_data` first references the
missing or mistyped columns (lines 111-117), i.e. before any of its
three writes, but only after `process_song_data` has already written the
two catalog tables. -/

/-- One write handed to the Partitioned Writer, in program order. -/
inductive Write
  | songs (t : List SongRow)
  | artists (t : List ArtistRow)
  | users (t : List UserRow)
  | time (t : List TimeRow)
  | songplays (t : List NumberedFactRow)
deriving DecidableEq, Repr

/-- Is this write one of the event-derived tables? -/
def Write.isEventTable : Write → Bool
  | .users _ => true
  | .time _ => true
  | .songplays _ => true
  | _ => false

/-- A fatal schema mismatch reported by the engine's analyzer. -/
structure SchemaError where
  msg : String
deriving DecidableEq, Repr

/-- `process_song_data` (lines 31-84): build and write `songs_table`,
then build and write `artists_table`. -/
def process_song_data (catalog : List CatalogRecord) : List Write :=
  [.songs (songs_table catalog), .artists (artists_table catalog)]

/-- `process_log_data` (lines 87-185): on an event-input schema mismatch
the analyzer raises at lines 111-117, before any write; otherwise build
and write `users_table`, `time_table` and `songplays_table` (the latter
joins against the raw `songs` view). -/
def process_log_data (logSrc : Except SchemaError (List RawEvent))
    (catalog : List CatalogRecord) : Except SchemaError (List Write) :=
  match logSrc with
  | .error e => .error e
  | .ok raw =>
      let logs := logsView raw
      .ok [.users (users_table logs), .time (time_table logs),
           .songplays (songplays_table logs catalog)]

/-- `main` (lines 188-204): song data first, log data second.  Returns
the writes that reached the Partitioned Writer, in order, and the fatal
error if the run aborted. -/
def mainRun (catalog : List CatalogRecord)
    (logSrc : Except SchemaError (List RawEvent)) :
    List Write × Option SchemaError :=
  let sw := process_song_data catalog
  match process_log_data logSrc catalog with
  | .error e => (sw, some e)
  | .ok lw => (sw ++ lw, none)


/-! ## Example inputs and derived predicates -/

/-- Example catalog: two records sharing an item id (titles in reverse
alphabetical order) and a shared creator id. -/
def exCat4 : List CatalogRecord :=
  [{ song_id := some "S1", title := some "Zebra", artist_id := some "C1",
     artist_name := some "X", artist_location := none, artist_latitude := none,
     artist_longitude := none, year := some 2001, duration := none },
   { song_id := some "S1", title := some "Apple", artist_id := some "C1",
     artist_name := some "X", artist_location := some "NY", artist_latitude := none,
     artist_longitude := none, year := none, duration := none }]

/-- Two `NextSong` events (with distinct timestamps) and one other
event, over a catalog holding the matching song. -/
def exRawA : List RawEvent :=
  [{ ts := 0, page := some "NextSong", userId := some "7",
     firstName := some "A", lastName := some "B", gender := some "F",
     level := some "free", song := some "Halo", artist := some "Beyonce",
     sessionId := some 1, location := none, userAgent := none },
   { ts := 1000, page := some "NextSong", userId := some "7",
     firstName := some "A", lastName := some "B", gender := some "F",
     level := some "paid", song := some "Halo", artist := some "Beyonce",
     sessionId := some 2, location := none, userAgent := none },
   { ts := 2000, page := some "Home", userId := some "7",
     firstName := some "A", lastName := some "B", gender := some "F",
     level := some "paid", song := none, artist := none,
     sessionId := some 2, location := none, userAgent := none }]

/-- Catalog with the one song the events of `exRawA` play. -/
def exCatA : List CatalogRecord :=
  [{ song_id := some "S1", title := some "Halo", artist_id := some "C1",
     artist_name := some "Beyonce", artist_location := none,
     artist_latitude := none, artist_longitude := none, year := some 2008,
     duration := none }]

/-- Does event `a` attain the maximum timestamp of its `userId` group in
`logs` (the join condition of `etl.py` lines 136-137 restated for a
single event)? -/
def isGroupMax (logs : List Event) (a : Event) : Bool :=
  sqlMax intLe ((logs.filter (fun e => e.userId == a.userId)).map
    (fun e => some e.ts)) == some a.ts

/-- Two `NextSong` events for one user, timestamp tied, levels
conflicting. -/
def exRaw3 : List RawEvent :=
  [{ ts := 5, page := some "NextSong", userId := some "1",
     firstName := some "A", lastName := some "B", gender := some "F",
     level := some "free", song := none, artist := none,
     sessionId := some 1, location := none, userAgent := none },
   { ts := 5, page := some "NextSong", userId := some "1",
     firstName := some "A", lastName := some "B", gender := some "F",
     level := some "paid", song := none, artist := none,
     sessionId := some 2, location := none, userAgent := none }]

/-- One `NextSong` event whose `userId` is the empty string —
non-null, but not parseable as an integer. -/
def exRaw10 : List RawEvent :=
  [{ ts := 5, page := some "NextSong", userId := some "",
     firstName := some "F", lastName := some "L", gender := some "M",
     level := some "free", song := none, artist := none,
     sessionId := some 9, location := none, userAgent := none }]

/-! ## Helper lemmas -/

instance {α : Type _} [LinearOrder α] : Std.Associative (min : α → α → α) :=
  ⟨fun a b c => min_assoc a b c⟩

instance {α : Type _} [LinearOrder α] : Std.Associative (max : α → α → α) :=
  ⟨fun a b c => max_assoc a b c⟩

/-- `strLe` decides the mathematical order on `String`. -/
theorem strLe_iff (a b : String) : strLe a b = true ↔ a ≤ b := by
  simp [strLe, String.le_iff_toList_le]

/-- `intLe` decides the order on `ℤ`. -/
theorem intLe_iff (a b : ℤ) : intLe a b = true ↔ a ≤ b := by simp [intLe]

/-- `ratLe` decides the order on `ℚ`. -/
theorem ratLe_iff (a b : ℚ) : ratLe a b = true ↔ a ≤ b := by simp [ratLe]

/-- When the comparator decides `≤`, `sqlMin` is the library minimum of
the non-null values. -/
theorem sqlMin_eq_min? {α : Type _} [LinearOrder α] {le : α → α → Bool}
    (hle : ∀ a b, le a b = true ↔ a ≤ b) :
    ∀ l : List (Option α), sqlMin le l = (l.filterMap id).min?
  | [] => rfl
  | none :: t => by
      simpa [sqlMin, List.filterMap_cons] using sqlMin_eq_min? hle t
  | some v :: t => by
      rw [sqlMin, sqlMin_eq_min? hle t, List.filterMap_cons]
      simp only [id, List.min?_cons]
      cases h : (t.filterMap id).min? with
      | none => simp [Option.elim]
      | some m =>
          simp only [Option.elim]
          rcases Bool.eq_false_or_eq_true (le v m) with hvm | hvm
          · simp [hvm, min_def, (hle v m).mp hvm]
          · have hnot : ¬ v ≤ m := fun hc => by
              rw [(hle v m).mpr hc] at hvm; cases hvm
            simp [hvm, min_def, hnot]

/-- When the comparator decides `≤`, `sqlMax` is the library maximum of
the non-null values. -/
theorem sqlMax_eq_max? {α : Type _} [LinearOrder α] {le : α → α → Bool}
    (hle : ∀ a b, le a b = true ↔ a ≤ b) :
    ∀ l : List (Option α), sqlMax le l = (l.filterMap id).max?
  | [] => rfl
  | none :: t => by
      simpa [sqlMax, List.filterMap_cons] using sqlMax_eq_max? hle t
  | some v :: t => by
      rw [sqlMax, sqlMax_eq_max? hle t, List.filterMap_cons]
      simp only [id, List.max?_cons]
      cases h : (t.filterMap id).max? with
      | none => simp [Option.elim]
      | some m =>
          simp only [Option.elim]
          rcases Bool.eq_false_or_eq_true (le v m) with hvm | hvm
          · simp [hvm, max_def, (hle v m).mp hvm]
          · have hnot : ¬ v ≤ m := fun hc => by
              rw [(hle v m).mpr hc] at hvm; cases hvm
            simp [hvm, max_def, hnot]

/-- Filtering a keyed table built over `Nodup` keys with a predicate
that pins the key down to `k` yields at most the row of `k`. -/
theorem filter_map_nodup_key {κ ρ : Type _} {keys : List κ} {f : κ → ρ}
    {P : ρ → Bool} {k : κ} (hnd : keys.Nodup) (hk : k ∈ keys)
    (hP : ∀ k' ∈ keys, P (f k') = true → k' = k) :
    (keys.map f).filter P = if P (f k) then [f k] else [] := by
  induction keys with
  | nil => cases hk
  | cons a t ih =>
      rcases List.nodup_cons.mp hnd with ⟨hat, hndt⟩
      rw [List.map_cons, List.filter_cons]
      rcases List.mem_cons.mp hk with rfl | hkt
      · have ht : (t.map f).filter P = [] := by
          apply List.filter_eq_nil_iff.mpr
          intro x hx hPx
          rcases List.mem_map.mp hx with ⟨k', hk', rfl⟩
          exact hat (by rw [← hP k' (List.mem_cons_of_mem _ hk') hPx]; exact hk')
        rw [ht]
      · have hPa : P (f a) = false := by
          rcases Bool.eq_false_or_eq_true (P (f a)) with h | h
          · exact absurd hkt
              (by rw [← hP a (List.mem_cons_self a t) h] at hkt; exact fun _ => hat hkt)
          · exact h
        rw [hPa]
        simp only [Bool.false_eq_true, if_false]
        exact ih hndt hkt (fun k' h h' => hP k' (List.mem_cons_of_mem _ h) h')

/-- A `flatMap` that emits either the element or nothing is a `filter`. -/
theorem flatMap_if_singleton {α : Type _} (p : α → Bool) :
    ∀ l : List α, (l.flatMap (fun a => if p a then [a] else [])) = l.filter p
  | [] => rfl
  | a :: t => by
      rw [List.flatMap_cons, flatMap_if_singleton p t, List.filter_cons]
      by_cases h : p a <;> simp [h]

/-- Counting with `==` in a `Nodup` list that contains the key gives 1. -/
theorem countP_beq_of_nodup {κ : Type _} [BEq κ] [LawfulBEq κ] :
    ∀ {l : List κ}, l.Nodup → ∀ {k : κ}, k ∈ l →
      l.countP (fun x => x == k) = 1 := by
  intro l
  induction l with
  | nil => intro _ k hk; cases hk
  | cons a t ih =>
      intro hnd k hk
      rcases List.nodup_cons.mp hnd with ⟨hat, hndt⟩
      rw [List.countP_cons]
      rcases List.mem_cons.mp hk with rfl | hkt
      · have h0 : t.countP (fun x => x == k) = 0 :=
          List.countP_eq_zero.mpr (fun x hx hbeq => hat (beq_iff_eq.mp hbeq ▸ hx))
        simp [h0]
      · have hak : ¬ (a == k) = true := fun hbeq => hat (beq_iff_eq.mp hbeq ▸ hkt)
        simp [ih hndt hkt, hak]

/-- Counting a key with `==` in a deduplicated list. -/
theorem countP_beq_dedup {κ : Type _} [BEq κ] [LawfulBEq κ] [DecidableEq κ]
    (ks : List κ) (k : κ) :
    ks.dedup.countP (fun x => x == k) = if k ∈ ks then 1 else 0 := by
  by_cases h : k ∈ ks
  · rw [if_pos h]
    exact countP_beq_of_nodup (List.nodup_dedup ks) (List.mem_dedup.mpr h)
  · rw [if_neg h]
    exact List.countP_eq_zero.mpr
      (fun x hx hbeq => h (beq_iff_eq.mp hbeq ▸ List.mem_dedup.mp hx))

/-- Membership in a grouped table: every row comes from a key of the
input, and carries that key. -/
theorem mem_map_dedup {κ ρ : Type _} [DecidableEq κ] {ks : List κ}
    {f : κ → ρ} {r : ρ} (h : r ∈ (ks.dedup.map f)) : ∃ k ∈ ks, r = f k := by
  rcases List.mem_map.mp h with ⟨k, hk, rfl⟩
  exact ⟨k, List.mem_dedup.mp hk, rfl⟩

/-! ## Claims -/

/-- C4: for every group of catalog records sharing an item id
(respectively a creator id), each scalar attribute of the emitted
`songs_table` (resp. `artists_table`) row is the minimum of the
attribute's non-null values over the group under the attribute's natural
order — and it is `none` exactly when the group has only nulls, since
`min?` of the empty list of non-null values is `none`. -/
theorem claim_C4_min_value_reducer (catalog : List CatalogRecord) :
    (∀ r ∈ songs_table catalog,
      r.title = ((catalog.filter (fun s => s.song_id == r.song_id)).filterMap
          CatalogRecord.title).min? ∧
      r.artist_id = ((catalog.filter (fun s => s.song_id == r.song_id)).filterMap
          CatalogRecord.artist_id).min? ∧
      r.year = ((catalog.filter (fun s => s.song_id == r.song_id)).filterMap
          CatalogRecord.year).min? ∧
      r.duration = ((catalog.filter (fun s => s.song_id == r.song_id)).filterMap
          CatalogRecord.duration).min?) ∧
    (∀ r ∈ artists_table catalog,
      r.name = ((catalog.filter (fun s => s.artist_id == r.artist_id)).filterMap
          CatalogRecord.artist_name).min? ∧
      r.location = ((catalog.filter (fun s => s.artist_id == r.artist_id)).filterMap
          CatalogRecord.artist_location).min? ∧
      r.latitude = ((catalog.filter (fun s => s.artist_id == r.artist_id)).filterMap
          CatalogRecord.artist_latitude).min? ∧
      r.longitude = ((catalog.filter (fun s => s.artist_id == r.artist_id)).filterMap
          CatalogRecord.artist_longitude).min?) := by
  constructor
  · intro r hr
    rcases mem_map_dedup hr with ⟨k, _, rfl⟩
    refine ⟨?_, ?_, ?_, ?_⟩ <;>
      simp [songs_table, sqlMin_eq_min? strLe_iff, sqlMin_eq_min? intLe_iff,
        sqlMin_eq_min? ratLe_iff, List.filterMap_map, Function.comp]
  · intro r hr
    rcases mem_map_dedup hr with ⟨k, _, rfl⟩
    refine ⟨?_, ?_, ?_, ?_⟩ <;>
      simp [artists_table, sqlMin_eq_min? strLe_iff, sqlMin_eq_min? ratLe_iff,
        List.filterMap_map, Function.comp]

/-- Witness for C4 at the concrete two-record catalog: the emitted title
is the minimum of `{"Zebra", "Apple"}`. -/
theorem claim_C4_witness :
    ({ song_id := some "S1", title := some "Apple", artist_id := some "C1",
       year := some 2001, duration := none } : SongRow).title =
      ((exCat4.filter (fun s => s.song_id == some "S1")).filterMap
        CatalogRecord.title).min? :=
  ((claim_C4_min_value_reducer exCat4).1 _ (by decide)).1

/-- C8: `songs_table` has exactly one row per distinct non-null item id
of the input, and `artists_table` exactly one row per distinct non-null
creator id. -/
theorem claim_C8_one_row_per_id (catalog : List CatalogRecord) (id : String) :
    ((songs_table catalog).countP (fun r => r.song_id == some id) =
      if (some id) ∈ catalog.map CatalogRecord.song_id then 1 else 0) ∧
    ((artists_table catalog).countP (fun r => r.artist_id == some id) =
      if (some id) ∈ catalog.map CatalogRecord.artist_id then 1 else 0) := by
  constructor
  · rw [songs_table, List.countP_map]
    show List.countP (fun k : Option String => k == some id) _ = _
    rw [countP_beq_dedup]
  · rw [artists_table, List.countP_map]
    show List.countP (fun k : Option String => k == some id) _ = _
    rw [countP_beq_dedup]

/-- Every row of the time table is the calendar decomposition of its own
`start_time`. -/
theorem mem_time_table_shape {logs : List Event} {r : TimeRow}
    (h : r ∈ time_table logs) : r = mkTimeRow r.start_time := by
  rcases List.mem_map.mp (List.mem_dedup.mp h) with ⟨e, _, rfl⟩
  rfl

/-- C6: the time dimension has no two rows with equal `start_time`, and
every derived calendar field is the fixed pure function of `start_time`
(hence two runs on the same timestamp produce identical fields). -/
theorem claim_C6_time_dim (raw : List RawEvent) :
    ((time_table (logsView raw)).map TimeRow.start_time).Nodup ∧
    (∀ r ∈ time_table (logsView raw),
      r.hour = hourOfUs r.start_time ∧ r.day = dayOfUs r.start_time ∧
      r.week = weekOfUs r.start_time ∧ r.month = monthOfUs r.start_time ∧
      r.year = yearOfUs r.start_time ∧ r.weekday = weekdayOfUs r.start_time) := by
  constructor
  · apply List.Nodup.map_on
    · intro x hx y hy hst
      rw [mem_time_table_shape hx, mem_time_table_shape hy, hst]
    · exact List.nodup_dedup _
  · intro r hr
    rw [mem_time_table_shape hr]
    exact ⟨rfl, rfl, rfl, rfl, rfl, rfl⟩

/-- Witness for C6 at a concrete event log: the epoch-origin row carries
the decomposition of microsecond 0. -/
theorem claim_C6_witness :
    ({ start_time := 0, hour := 0, day := 1, week := 1, month := 1,
       year := 1970, weekday := 5 } : TimeRow).hour = hourOfUs 0 ∧
    ({ start_time := 0, hour := 0, day := 1, week := 1, month := 1,
       year := 1970, weekday := 5 } : TimeRow).day = dayOfUs 0 ∧
    ({ start_time := 0, hour := 0, day := 1, week := 1, month := 1,
       year := 1970, weekday := 5 } : TimeRow).week = weekOfUs 0 ∧
    ({ start_time := 0, hour := 0, day := 1, week := 1, month := 1,
       year := 1970, weekday := 5 } : TimeRow).month = monthOfUs 0 ∧
    ({ start_time := 0, hour := 0, day := 1, week := 1, month := 1,
       year := 1970, weekday := 5 } : TimeRow).year = yearOfUs 0 ∧
    ({ start_time := 0, hour := 0, day := 1, week := 1, month := 1,
       year := 1970, weekday := 5 } : TimeRow).weekday = weekdayOfUs 0 :=
  (claim_C6_time_dim exRawA).2 _ (by decide)

/-- C5 counterexample: on an event-input schema mismatch the run has
already written the two catalog tables (the claim asserts no output
table at all is written before the abort). -/
theorem claim_C5_counterexample :
    mainRun [] (Except.error ⟨"events: required column absent"⟩) =
      ([Write.songs [], Write.artists []],
        some ⟨"events: required column absent"⟩) := by decide

/-- C5 as amended: on an event-input schema mismatch the run aborts
fatally before any *event-derived* table (users, time, songplays) is
written — the catalog tables have already been written, because catalog
processing precedes event processing in `main`. -/
theorem claim_C5_abort_before_event_tables (catalog : List CatalogRecord)
    (e : SchemaError) :
    (mainRun catalog (Except.error e)).1.countP Write.isEventTable = 0 ∧
    (mainRun catalog (Except.error e)).2 = some e := by
  constructor
  · simp [mainRun, process_log_data, process_song_data, Write.isEventTable,
      List.countP_cons]
  · simp [mainRun, process_log_data]

/-- C7: the point-in-time stored for the event timestamp 1001 ms is
1000999 µs, not the exact 1001000 µs — the binary64 division by `1000.0`
and the truncating cast lose the millisecond; the computed value does
not equal `ts / 1000` at millisecond precision. -/
theorem claim_C7_millisecond_loss :
    sparkStartTimeUs 1001 = 1000999 ∧ sparkStartTimeUs 1001 ≠ 1001 * 1000 := by
  decide

/-- SQL equality never matches a null operand in the fact join. -/
theorem joinCond_of_null {a : Event} (b : CatalogRecord)
    (h : a.song = none ∨ a.artist = none) : joinCond a b = false := by
  rcases h with h | h
  · simp [joinCond, sqlEqStr, h]
  · cases hb : sqlEqStr a.song b.title <;> simp [joinCond, sqlEqStr, h, hb]

/-- C9: an event with a null item title or a null creator name satisfies
the join predicate against no catalog record (even a record with null
title or name), so dropping all such events leaves the join output
unchanged — they produce no fact row. -/
theorem claim_C9_null_never_joins :
    (∀ (a : Event) (b : CatalogRecord),
      a.song = none ∨ a.artist = none → joinCond a b = false) ∧
    (∀ (logs : List Event) (songs : List CatalogRecord),
      songplaysJoin logs songs =
        songplaysJoin (logs.filter (fun e => e.song.isSome && e.artist.isSome)) songs) := by
  refine ⟨fun a b h => joinCond_of_null b h, fun logs songs => ?_⟩
  induction logs with
  | nil => rfl
  | cons a t ih =>
      by_cases h : (a.song.isSome && a.artist.isSome) = true
      · simp only [songplaysJoin, List.flatMap_cons, List.filter_cons, h, if_true]
        simp only [songplaysJoin] at ih
        rw [ih]
      · have hnull : a.song = none ∨ a.artist = none := by
          rcases Bool.and_eq_true_iff.not.mp h with -
          cases hs : a.song with
          | none => exact Or.inl rfl
          | some v =>
              cases ha : a.artist with
              | none => exact Or.inr rfl
              | some w => exact absurd (by simp [hs, ha]) h
        have hfe : songs.filter (joinCond a) = [] :=
          List.filter_eq_nil_iff.mpr
            (fun b _ => by simp [joinCond_of_null b hnull])
        rw [Bool.not_eq_true] at h
        simp only [songplaysJoin, List.flatMap_cons, List.filter_cons, h,
          Bool.false_eq_true, if_false, hfe, List.map_nil, List.nil_append]
        simp only [songplaysJoin] at ih
        rw [ih]

/-- Witness for C9: the null-song event of `exRawA`'s third record shape
matches no catalog record. -/
theorem claim_C9_witness :
    joinCond
      { ts := 0, start_time := 0, userId := some "7", firstName := none,
        lastName := none, gender := none, level := none, song := none,
        artist := some "Beyonce", sessionId := none, location := none,
        userAgent := none }
      { song_id := some "S1", title := none, artist_id := some "C1",
        artist_name := some "Beyonce", artist_location := none,
        artist_latitude := none, artist_longitude := none, year := none,
        duration := none } = false :=
  claim_C9_null_never_joins.1 _ _ (Or.inl rfl)

/-- C1 counterexample: the catalog `exCat4` holds two records for item
`S1` with titles `"Zebra"` and `"Apple"`, so `songs_table` keeps only
the minimum title `"Apple"` — no dimension row has title `"Zebra"` — yet
an event playing `"Zebra"` still produces a fact row, because the join
of `etl.py` line 173 runs against the raw `songs` view, not against the
built dimensions. -/
theorem claim_C1_counterexample :
    (songplays_table (logsView
      [{ ts := 0, page := some "NextSong", userId := some "7",
         firstName := some "A", lastName := some "B", gender := some "F",
         level := some "free", song := some "Zebra", artist := some "X",
         sessionId := some 1, location := none, userAgent := none }])
      exCat4).length = 1 ∧
    ((songs_table exCat4).filter (fun r => r.title == some "Zebra")).length = 0 := by
  decide

/-- C1 as amended: the fact table holds exactly one row per
`(filtered event, raw catalog record)` pair whose `(song, artist)`
equals the record's `(title, artist_name)` — case-sensitively, a null
operand never matching — with the join taken against the *raw* catalog
records rather than the built item/creator dimensions, so fan-out is one
row per matching raw record. -/
theorem claim_C1_join_per_raw_record (logs : List Event)
    (songs : List CatalogRecord) :
    (((songplays_table logs songs).map NumberedFactRow.toFactRow).Perm
      (songplaysJoin logs songs)) ∧
    (∀ r : FactRow, r ∈ songplaysJoin logs songs ↔
      ∃ a ∈ logs, ∃ b ∈ songs, joinCond a b = true ∧ r = mkFact a b) ∧
    ((songplaysJoin logs songs).length =
      (logs.map (fun a => (songs.filter (joinCond a)).length)).sum) := by
  refine ⟨?_, ?_, ?_⟩
  · have h1 : (songplays_table logs songs).map NumberedFactRow.toFactRow =
        List.insertionSort factLE (songplaysJoin logs songs) := by
      rw [songplays_table, List.map_map]
      have h2 : (NumberedFactRow.toFactRow ∘ fun p : FactRow × ℕ =>
          ({ toFactRow := p.1, songplay_id := (p.2 : ℤ) + 1 } : NumberedFactRow)) =
          Prod.fst := rfl
      rw [h2, List.map_fst_zip]
      simp
    rw [h1]
    exact List.perm_insertionSort factLE _
  · intro r
    constructor
    · intro hr
      rcases List.mem_flatMap.mp hr with ⟨a, ha, hr'⟩
      rcases List.mem_map.mp hr' with ⟨b, hb, rfl⟩
      rcases List.mem_filter.mp hb with ⟨hbs, hcond⟩
      exact ⟨a, ha, b, hbs, hcond, rfl⟩
    · rintro ⟨a, ha, b, hb, hcond, rfl⟩
      exact List.mem_flatMap.mpr ⟨a, ha, List.mem_map.mpr
        ⟨b, List.mem_filter.mpr ⟨hb, hcond⟩, rfl⟩⟩
  · rw [songplaysJoin, List.length_flatMap]
    simp only [Function.comp_def, List.length_map]

/-- Witness for C1 as amended, at the concrete input: two matching
events on a one-record catalog give two fact rows, one per matching
pair. -/
theorem claim_C1_witness :
    (songplaysJoin (logsView exRawA) exCatA).length =
      ((logsView exRawA).map
        (fun a => (exCatA.filter (joinCond a)).length)).sum :=
  (claim_C1_join_per_raw_record (logsView exRawA) exCatA).2.2

/-- The length of the numbered fact table is the length of the sorted
join result. -/
theorem songplays_table_length (logs : List Event) (songs : List CatalogRecord) :
    (songplays_table logs songs).length =
      (List.insertionSort factLE (songplaysJoin logs songs)).length := by
  simp [songplays_table]

/-- Row `i` of the numbered fact table: the `i`-th row of the sorted
join result, carrying surrogate key `i + 1`. -/
theorem songplays_table_get (logs : List Event) (songs : List CatalogRecord)
    (i : ℕ) (hi : i < (songplays_table logs songs).length) :
    (songplays_table logs songs).get ⟨i, hi⟩ =
      { toFactRow := (List.insertionSort factLE (songplaysJoin logs songs)).get
          ⟨i, by rw [← songplays_table_length logs songs]; exact hi⟩,
        songplay_id := (i : ℤ) + 1 } := by
  have hi' : i < (List.insertionSort factLE (songplaysJoin logs songs)).length := by
    rw [← songplays_table_length logs songs]; exact hi
  simp only [songplays_table, List.get_eq_getElem, List.getElem_map, List.getElem_zip,
    List.getElem_range]

/-- C2: the surrogate keys of the fact table are exactly `1..N` in the
emitted order (dense, no gaps or repeats), and any row with a strictly
smaller `start_time` has a strictly smaller `songplay_id` — one global
total order, the window having no partitioning. -/
theorem claim_C2_surrogate_keys (logs : List Event) (songs : List CatalogRecord) :
    ((songplays_table logs songs).map NumberedFactRow.songplay_id =
      List.map (fun i : ℕ => (i : ℤ) + 1)
        (List.range (songplays_table logs songs).length)) ∧
    (∀ i j (hi : i < (songplays_table logs songs).length)
        (hj : j < (songplays_table logs songs).length),
      ((songplays_table logs songs).get ⟨i, hi⟩).start_time <
        ((songplays_table logs songs).get ⟨j, hj⟩).start_time →
      ((songplays_table logs songs).get ⟨i, hi⟩).songplay_id <
        ((songplays_table logs songs).get ⟨j, hj⟩).songplay_id) := by
  constructor
  · rw [songplays_table_length, songplays_table, List.map_map]
    have h2 : (NumberedFactRow.songplay_id ∘ fun p : FactRow × ℕ =>
        ({ toFactRow := p.1, songplay_id := (p.2 : ℤ) + 1 } : NumberedFactRow)) =
        (fun i : ℕ => (i : ℤ) + 1) ∘ Prod.snd := rfl
    rw [h2, ← List.map_map, List.map_snd_zip _ _ (by simp)]
  · intro i j hi hj hst
    rw [songplays_table_get logs songs i hi, songplays_table_get logs songs j hj] at hst ⊢
    simp only at hst ⊢
    have hij : i < j := by
      by_contra hle
      push_neg at hle
      rcases lt_or_eq_of_le hle with hji | rfl
      · have := (List.sorted_insertionSort factLE (songplaysJoin logs songs)).rel_get_of_lt
          (a := ⟨j, by rw [← songplays_table_length logs songs]; exact hj⟩)
          (b := ⟨i, by rw [← songplays_table_length logs songs]; exact hi⟩) hji
        exact absurd hst (not_lt.mpr this)
      · exact lt_irrefl _ hst
    have : (i : ℤ) < (j : ℤ) := by exact_mod_cast hij
    omega

/-- Witness for C2 at the concrete input: two fact rows with
`start_time` 0 µs and 1000000 µs get keys 1 and 2. -/
theorem claim_C2_witness :
    ((songplays_table (logsView exRawA) exCatA).get ⟨0, by decide⟩).songplay_id <
      ((songplays_table (logsView exRawA) exCatA).get ⟨1, by decide⟩).songplay_id :=
  (claim_C2_surrogate_keys (logsView exRawA) exCatA).2 0 1 (by decide) (by decide)
    (by decide)

/-- SQL equality with a null left operand is never satisfied. -/
theorem sqlEqStr_none_left (k : Option String) : sqlEqStr none k = false := rfl

/-- SQL string equality against a non-null left operand pins the right
operand. -/
theorem sqlEqStr_some_iff {u : String} {k : Option String} :
    sqlEqStr (some u) k = true ↔ k = some u := by
  cases k with
  | none => simp [sqlEqStr]
  | some v =>
      show (u == v) = true ↔ some v = some u
      rw [beq_iff_eq]
      exact ⟨fun h => by rw [h], fun h => (Option.some.inj h).symm⟩

/-- SQL integer equality against a non-null left operand pins the right
operand. -/
theorem sqlEqInt_some_iff {t : ℤ} {m : Option ℤ} :
    sqlEqInt (some t) m = true ↔ m = some t := by
  cases m with
  | none => simp [sqlEqInt]
  | some v =>
      show (t == v) = true ↔ some v = some t
      rw [beq_iff_eq]
      exact ⟨fun h => by rw [h], fun h => (Option.some.inj h).symm⟩

/-- The inner join of the users query keeps exactly the events that
attain their `userId` group's maximum timestamp (with a non-null
`userId`): `users_table` is the distinct projection of those events. -/
theorem users_table_eq (logs : List Event) :
    users_table logs =
      ((logs.filter (fun a => a.userId.isSome && isGroupMax logs a)).map
        mkUserRow).dedup := by
  rw [users_table]
  have hstep : ∀ a ∈ logs,
      (((usersSub logs).filter
        (fun b => sqlEqStr a.userId b.userId && sqlEqInt (some a.ts) b.tsLast)).map
        (fun _ => a)) =
      if a.userId.isSome && isGroupMax logs a then [a] else [] := by
    intro a ha
    cases hu : a.userId with
    | none =>
        have hnil : ((usersSub logs).filter
            (fun b => sqlEqStr none b.userId && sqlEqInt (some a.ts) b.tsLast)) = [] := by
          apply List.filter_eq_nil_iff.mpr
          intro b _
          simp [sqlEqStr_none_left]
        rw [hnil]
        simp
    | some u =>
        rw [usersSub, filter_map_nodup_key
          (f := fun k => (⟨k, sqlMax intLe ((logs.filter
            (fun e => e.userId == k)).map (fun e => some e.ts))⟩ : UserGroupRow))
          (P := fun b => sqlEqStr (some u) b.userId && sqlEqInt (some a.ts) b.tsLast)
          (k := some u)
          (List.nodup_dedup _)
          (List.mem_dedup.mpr (List.mem_map.mpr ⟨a, ha, hu⟩))
          (fun k' _ hP => sqlEqStr_some_iff.mp (Bool.and_eq_true_iff.mp hP).1)]
        have hgm : isGroupMax logs a =
            (sqlMax intLe ((logs.filter (fun e => e.userId == some u)).map
              (fun e => some e.ts)) == some a.ts) := by
          rw [isGroupMax, hu]
        by_cases hmax : isGroupMax logs a = true
        · have hval : sqlMax intLe ((logs.filter (fun e => e.userId == some u)).map
              (fun e => some e.ts)) = some a.ts :=
            beq_iff_eq.mp (hgm ▸ hmax)
          simp [sqlEqStr, sqlEqInt, hval, hmax]
        · rw [Bool.not_eq_true] at hmax
          have hval : sqlEqInt (some a.ts)
              (sqlMax intLe ((logs.filter (fun e => e.userId == some u)).map
                (fun e => some e.ts))) = false := by
            rcases Bool.eq_false_or_eq_true (sqlEqInt (some a.ts)
              (sqlMax intLe ((logs.filter (fun e => e.userId == some u)).map
                (fun e => some e.ts)))) with h | h
            · rw [hgm, sqlEqInt_some_iff.mp h] at hmax
              rw [beq_self_eq_true] at hmax
              cases hmax
            · exact h
          simp [sqlEqStr, hval, hmax]
  rw [List.flatMap_congr hstep, flatMap_if_singleton]
  have hff : (logs.filter (fun a => a.userId.isSome && isGroupMax logs a)).filter
      (fun a => a.userId.isSome) =
      logs.filter (fun a => a.userId.isSome && isGroupMax logs a) := by
    apply List.filter_eq_self.mpr
    intro a ha
    exact (Bool.and_eq_true_iff.mp (List.mem_filter.mp ha).2).1
  rw [hff]

/-- Every `userId` value present in the log has an event attaining its
group's maximum timestamp. -/
theorem exists_groupMax (logs : List Event) {u : String}
    (hu : some u ∈ logs.map Event.userId) :
    ∃ e ∈ logs, e.userId = some u ∧ isGroupMax logs e = true := by
  rcases List.mem_map.mp hu with ⟨e0, he0, hu0⟩
  have he0g : e0 ∈ logs.filter (fun e => e.userId == some u) :=
    List.mem_filter.mpr ⟨he0, by rw [hu0]; exact beq_self_eq_true _⟩
  have hmax : sqlMax intLe ((logs.filter (fun e => e.userId == some u)).map
      (fun e => some e.ts)) =
      ((logs.filter (fun e => e.userId == some u)).map Event.ts).max? := by
    rw [sqlMax_eq_max? intLe_iff, List.filterMap_map]
    congr 1
    exact List.filterMap_eq_map Event.ts ▸ rfl
  obtain ⟨M, hM⟩ : ∃ M,
      ((logs.filter (fun e => e.userId == some u)).map Event.ts).max? = some M := by
    cases h : ((logs.filter (fun e => e.userId == some u)).map Event.ts).max? with
    | none =>
        have := List.max?_eq_none_iff.mp h
        rw [List.map_eq_nil_iff] at this
        rw [this] at he0g
        cases he0g
    | some M => exact ⟨M, rfl⟩
  have hMmem : M ∈ (logs.filter (fun e => e.userId == some u)).map Event.ts :=
    List.max?_mem (fun a b => max_choice a b) hM
  rcases List.mem_map.mp hMmem with ⟨e1, he1g, hts⟩
  rcases List.mem_filter.mp he1g with ⟨he1, he1u⟩
  have he1u' : e1.userId = some u := beq_iff_eq.mp he1u
  refine ⟨e1, he1, he1u', ?_⟩
  rw [isGroupMax, he1u', hmax, hM, hts]
  exact beq_self_eq_true _

/-- C3 as amended: provided the integer cast is injective on the
`userId` values present in the filtered events, and all of a user's
maximum-timestamp events project to the same attributes, `users_table`
has exactly one row per distinct non-null user id, and that row carries
the attributes of a maximum-timestamp event of that user.  (The
unamended claim fails when two tied maximum-timestamp events disagree,
see the counterexample.) -/
theorem claim_C3_latest_state (logs : List Event)
    (H2 : ∀ e1 ∈ logs, ∀ e2 ∈ logs,
      e1.userId.bind sparkCastInt = e2.userId.bind sparkCastInt →
      e1.userId = e2.userId)
    (H3 : ∀ e1 ∈ logs, ∀ e2 ∈ logs, e1.userId = e2.userId →
      e1.userId.isSome = true → isGroupMax logs e1 = true →
      isGroupMax logs e2 = true → mkUserRow e1 = mkUserRow e2)
    (u : String) (hu : some u ∈ logs.map Event.userId) :
    ((users_table logs).countP (fun r => r.user_id == sparkCastInt u) = 1) ∧
    (∀ r ∈ users_table logs, r.user_id = sparkCastInt u →
      ∃ e ∈ logs, e.userId = some u ∧ isGroupMax logs e = true ∧
        r = mkUserRow e) := by
  obtain ⟨estar, hestar, hustar, hmaxstar⟩ := exists_groupMax logs hu
  have hrowid : (mkUserRow estar).user_id = sparkCastInt u := by
    rw [show (mkUserRow estar).user_id = estar.userId.bind sparkCastInt from rfl,
      hustar]
    rfl
  have hrow : mkUserRow estar ∈ users_table logs := by
    rw [users_table_eq]
    exact List.mem_dedup.mpr (List.mem_map.mpr ⟨estar,
      List.mem_filter.mpr ⟨hestar, by rw [hustar]; simp [hmaxstar]⟩, rfl⟩)
  have hchar : ∀ r ∈ users_table logs, r.user_id = sparkCastInt u →
      ∃ e ∈ logs, e.userId = some u ∧ isGroupMax logs e = true ∧
        r = mkUserRow e := by
    intro r hr hrid
    rw [users_table_eq] at hr
    rcases List.mem_map.mp (List.mem_dedup.mp hr) with ⟨a, haf, rfl⟩
    rcases List.mem_filter.mp haf with ⟨halogs, hcond⟩
    rcases Bool.and_eq_true_iff.mp hcond with ⟨-, hmaxa⟩
    have hbind : a.userId.bind sparkCastInt = sparkCastInt u := hrid
    have hb2 : estar.userId.bind sparkCastInt = sparkCastInt u := by
      rw [hustar]; rfl
    have huid : a.userId = estar.userId :=
      H2 a halogs estar hestar (by rw [hbind, hb2])
    exact ⟨a, halogs, by rw [huid]; exact hustar, hmaxa, rfl⟩
  refine ⟨?_, hchar⟩
  have hcong : ∀ x ∈ users_table logs,
      ((fun r : UserRow => r.user_id == sparkCastInt u) x = true) ↔
        ((x == mkUserRow estar) = true) := by
    intro x hx
    constructor
    · intro hxid
      rcases hchar x hx (beq_iff_eq.mp hxid) with ⟨e, helogs, heu, hemax, rfl⟩
      have he : mkUserRow e = mkUserRow estar :=
        H3 e helogs estar hestar (by rw [heu, hustar])
          (by rw [heu]; rfl) hemax hmaxstar
      rw [he]
      exact beq_self_eq_true _
    · intro hxeq
      rw [beq_iff_eq.mp hxeq]
      show ((mkUserRow estar).user_id == sparkCastInt u) = true
      rw [hrowid]
      exact beq_self_eq_true _
  rw [List.countP_congr hcong, users_table_eq]
  exact countP_beq_of_nodup (List.nodup_dedup _) (users_table_eq logs ▸ hrow)

/-- C3 counterexample: two events of user `"1"` tie at the maximum
timestamp with different levels, and `SELECT DISTINCT` keeps both
projected rows — two rows for one distinct non-null user id. -/
theorem claim_C3_counterexample :
    (users_table (logsView exRaw3)).countP
      (fun r => r.user_id == some 1) = 2 := by decide

/-- Witness for C3 as amended at a concrete two-event log (one user,
distinct timestamps): exactly one row, carrying the latest state. -/
theorem claim_C3_witness :
    ((users_table (logsView exRawA)).countP
      (fun r => r.user_id == sparkCastInt "7") = 1) ∧
    (∀ r ∈ users_table (logsView exRawA), r.user_id = sparkCastInt "7" →
      ∃ e ∈ logsView exRawA, e.userId = some "7" ∧
        isGroupMax (logsView exRawA) e = true ∧ r = mkUserRow e) :=
  claim_C3_latest_state (logsView exRawA) (by decide) (by decide) "7" (by decide)

/-- C10: an event whose `userId` is the empty string — non-null, hence
kept by `WHERE userId IS NOT NULL`, which runs on the raw string — wins
its group's maximum-timestamp join, and `CAST('' AS int)` yields null:
the emitted user row has a null `user_id`. -/
theorem claim_C10_unparseable_userid :
    users_table (logsView exRaw10) =
      [{ user_id := none, first_name := some "F", last_name := some "L",
         gender := some "M", level := some "free" }] := by decide
